import Mathlib

/-
Verification of the config-store entry engine (src/commands.rs, src/entry.rs).

The store is modelled as the list of rows of the SQLite table `data`, in
storage scan order.  SQL statements are embedded by their effect on that list:
`SELECT * FROM data WHERE name = ?` via `query_row` yields the first matching
row; `UPDATE ... WHERE name = ?` rewrites every matching row; `DELETE FROM
data WHERE name = ?` removes every matching row; `INSERT` appends a row whose
`id` (an `INTEGER PRIMARY KEY` without AUTOINCREMENT) is one more than the
largest id present (1 on an empty table); `DROP TABLE data` empties the
mapping — the storage initializer (main.rs, `CREATE TABLE IF NOT EXISTS`)
recreates the empty table before the next operation of a later invocation, so
across CLI invocations the observable state after drop is the empty store.
Storage-level I/O failures are not modelled (the pure model cannot fail at
that tier), so the `RusqliteError` constructor carries no payload; the only
error the model produces is `NoEntry`, arising exactly where `query_row`
returns `QueryReturnedNoRows` and the `From` instance converts it.
-/

namespace ConfigStore

/-- Representation of an entry in the db (src/entry.rs, `struct Entry`).
`_id` is the storage-assigned primary key, an `i32` in Rust, modelled as `Int`
(ids produced by the model are the small positive numbers SQLite assigns, far
from the `i32` bounds, so no wrap-around is modelled). -/
structure Entry where
  _id : Int
  name : String
  value : String
  alternate : String
deriving DecidableEq

/-- Escaping of one character as performed by Rust's derived `Debug` for the
`String` fields of `Entry` (`char::escape_debug`): tab, newline, carriage
return, backslash, double quote and NUL get their two-character escapes, other
control characters become a hex escape; printable characters pass through
(characters at or above `0x80` are treated as printable here — the claims
never depend on exotic code points). -/
def rustCharDebug (c : Char) : String :=
  if c = '\t' then "\\t"
  else if c = '\n' then "\\n"
  else if c = '\r' then "\\r"
  else if c = '\\' then "\\\\"
  else if c = '\"' then "\\\""
  else if c = '\x00' then "\\0"
  else if c.toNat < 0x20 ∨ c.toNat = 0x7f then
    "\\u\x7b" ++ (Nat.toDigits 16 c.toNat).asString ++ "\x7d"
  else String.singleton c

/-- Rendering of a `String` field under Rust's derived `Debug`:
quote-delimited, each character escaped by `rustCharDebug`. -/
def rustStrDebug (s : String) : String :=
  "\"" ++ String.join (s.toList.map rustCharDebug) ++ "\""

/-- The `Entry::json` method (src/entry.rs lines 21-28): a fixed format string
interpolating the four fields with `Display`, so `_id` is printed as a decimal
number inside quotes and the strings are inserted verbatim (no escaping). -/
def Entry.json (e : Entry) : String :=
  "\x7b \"_id\": \"" ++ toString e._id ++ "\", \"name\": \"" ++ e.name ++
    "\", \"value\": \"" ++ e.value ++ "\", \"alternate\": \"" ++ e.alternate ++ "\" \x7d"

/-- The derived `Debug` rendering of `Entry` (src/entry.rs line 5,
`#[derive(Debug)]`): the struct name, then each field as `name: value` with
the string fields under `rustStrDebug`. -/
def Entry.debugFmt (e : Entry) : String :=
  "Entry \x7b _id: " ++ toString e._id ++ ", name: " ++ rustStrDebug e.name ++
    ", value: " ++ rustStrDebug e.value ++ ", alternate: " ++ rustStrDebug e.alternate ++ " \x7d"

/-- The `Display` implementation for `Entry` (src/entry.rs lines 30-34)
delegates to the `Debug` rendering (`write!(f, "\x7b:?\x7d", self)`); this is
what `to_string()` produces in `list_cmd`. -/
def Entry.display (e : Entry) : String :=
  e.debugFmt

/-- The rows of the table `data`, in storage scan order. -/
abbrev Store := List Entry

/-- The error type of src/commands.rs lines 16-23.  `RusqliteError` wraps a
storage-layer error in Rust; the pure model never produces one, so the
constructor is nullary here. -/
inductive Error where
  | RusqliteError
  | NoEntry
deriving DecidableEq

/-- Helper `select` (src/commands.rs lines 41-52): `query_row` returns the
first row of the scan whose `name` matches, or `QueryReturnedNoRows`, which
the `From` instance (lines 25-32) converts to `NoEntry`. -/
def select (st : Store) (name : String) : Except Error Entry :=
  match st.find? (fun e => e.name == name) with
  | some e => Except.ok e
  | none => Except.error Error.NoEntry

/-- Helper `exists` (src/commands.rs lines 55-59): whether any row has the
given name.  (`exists` is a Lean keyword, hence the underscore.) -/
def exists_ (st : Store) (name : String) : Bool :=
  st.any (fun e => e.name == name)

/-- The id SQLite assigns to a fresh row of `data`: `id` is an
`INTEGER PRIMARY KEY` without AUTOINCREMENT, so the new rowid is one more
than the largest rowid in the table (1 when the table is empty). -/
def nextId (st : Store) : Int :=
  (st.foldl (fun m e => max m e._id) 0) + 1

/-- Helper `new` (src/commands.rs lines 62-69): `INSERT INTO data (name,
value, alternate)` appends a row with a storage-assigned id, then returns
"Ok". -/
def new (st : Store) (name value alternate : String) : Store × Except Error String :=
  (st ++ [⟨nextId st, name, value, alternate⟩], Except.ok ("Ok"))

/-- `exists_cmd` (src/commands.rs lines 75-77): `exists` with the boolean
rendered by `to_string()` ("true" / "false"). -/
def exists_cmd (st : Store) (name : String) : Except Error String :=
  Except.ok (toString (exists_ st name))

/-- `delete_cmd` (src/commands.rs lines 82-86): `DELETE FROM data WHERE
name = ?` removes every row with that name, then returns "Ok" regardless of
whether any row matched. -/
def delete_cmd (st : Store) (name : String) : Store × Except Error String :=
  (st.filter (fun e => !(e.name == name)), Except.ok ("Ok"))

/-- `get_cmd` (src/commands.rs lines 89-111): select, then return the value,
the alternate, the json rendering or `"\x7bvalue\x7d \x7balternate\x7d"`
according to the flags, checked in that order. -/
def get_cmd (st : Store) (name : String)
    (value_only alternate_only json_format : Bool) : Except Error String :=
  match select st name with
  | Except.error err => Except.error err
  | Except.ok entry =>
    if value_only then Except.ok entry.value
    else if alternate_only then Except.ok entry.alternate
    else if json_format then Except.ok entry.json
    else Except.ok (entry.value ++ " " ++ entry.alternate)

/-- The SQL statement `UPDATE data SET value = ?, alternate = ? WHERE
name = ?` (src/commands.rs lines 126-133 and 152-155): every row with the
given name gets the new value and alternate; id and name columns are not in
the SET list. -/
def updateWhere (st : Store) (name value alternate : String) : Store :=
  st.map (fun e =>
    if e.name == name then { e with value := value, alternate := alternate } else e)

/-- `set_cmd` (src/commands.rs lines 116-146): if the name exists, re-select
the entry and update value/alternate to the provided options, defaulting to
the current fields (`unwrap_or`); if absent and not `change_only`, create with
the options defaulting to "" (`unwrap_or_default`); otherwise `NoEntry`. -/
def set_cmd (st : Store) (name : String) (new_value new_alternate : Option String)
    (change_only : Bool) : Store × Except Error String :=
  if exists_ st name then
    match select st name with
    | Except.error err => (st, Except.error err)
    | Except.ok entry =>
      (updateWhere st name (new_value.getD entry.value) (new_alternate.getD entry.alternate),
        Except.ok ("Ok"))
  else if !change_only then
    new st name (new_value.getD ("")) (new_alternate.getD (""))
  else
    (st, Except.error Error.NoEntry)

/-- `toggle_cmd` (src/commands.rs lines 149-158): select the entry, write its
alternate into the value column and its value into the alternate column for
every row with the entry's name, and return the old alternate (the new
value). -/
def toggle_cmd (st : Store) (name : String) : Store × Except Error String :=
  match select st name with
  | Except.error err => (st, Except.error err)
  | Except.ok entry =>
    (updateWhere st entry.name entry.alternate entry.value, Except.ok entry.alternate)

/-- `list_cmd` (src/commands.rs lines 161-182): fold over all rows in scan
order, rendering each as json or via `Display` (which is the `Debug`
rendering) and appending a newline (`writeln!`). -/
def list_cmd (st : Store) (json : Bool) : Except Error String :=
  Except.ok (st.foldl
    (fun acc e => acc ++ (if json then e.json else e.display) ++ "\n") "")

/-- `drop_cmd` (src/commands.rs lines 187-191): `DROP TABLE data` removes all
entries and returns "Ok".  The table (not the db file) is gone afterwards; the
storage initializer of the next CLI invocation recreates it empty, so at the
level of the persisted mapping the state after drop is the empty store. -/
def drop_cmd (_st : Store) : Store × Except Error String :=
  (([] : Store), Except.ok ("Ok"))

/-- The three list formats named by the spec.  The implementation's `list_cmd`
takes only a `json` flag; this type exists to state the refinement that
`debug` and `display` coincide. -/
inductive ListFormat where
  | debug
  | display
  | json

/-- Spec-side list operation over the three formats of the spec (section 4.1,
`list(format)`): one line per entry in scan order, rendered per format.
`debug` uses the `Debug` rendering, `display` the `Display` rendering, `json`
the json rendering. -/
def listSpec (st : Store) (format : ListFormat) : String :=
  st.foldl
    (fun acc e =>
      acc ++ (match format with
        | ListFormat.debug => e.debugFmt
        | ListFormat.display => e.display
        | ListFormat.json => e.json) ++ "\n") ""

end ConfigStore

deriving instance DecidableEq for Except

namespace ConfigStore

/-- Characterisation of a successful select: the first matching row. -/
theorem select_ok_iff {st : Store} {name : String} {e : Entry} :
    select st name = Except.ok e ↔ st.find? (fun x => x.name == name) = some e := by
  unfold select
  cases hf : st.find? (fun x => x.name == name) <;> simp

/-- Characterisation of a failing select: no matching row. -/
theorem select_err_iff {st : Store} {name : String} :
    select st name = Except.error Error.NoEntry ↔
      st.find? (fun x => x.name == name) = none := by
  unfold select
  cases hf : st.find? (fun x => x.name == name) <;> simp

/-- A selected entry carries the requested name. -/
theorem name_of_select {st : Store} {name : String} {e : Entry}
    (h : select st name = Except.ok e) : e.name = name := by
  rw [select_ok_iff] at h
  have hb := List.find?_some h
  simpa using hb

/-- A selected entry is a member of the store. -/
theorem mem_of_select {st : Store} {name : String} {e : Entry}
    (h : select st name = Except.ok e) : e ∈ st := by
  rw [select_ok_iff] at h
  exact List.mem_of_find?_eq_some h

/-- When select succeeds, the existence check succeeds. -/
theorem exists_of_select {st : Store} {name : String} {e : Entry}
    (h : select st name = Except.ok e) : exists_ st name = true := by
  rw [select_ok_iff] at h
  have hb := List.find?_some h
  exact List.any_eq_true.mpr ⟨e, List.mem_of_find?_eq_some h, hb⟩

/-- When the existence check succeeds, select returns some entry. -/
theorem select_of_exists {st : Store} {name : String}
    (h : exists_ st name = true) : ∃ e, select st name = Except.ok e := by
  obtain ⟨x, hmem, hx⟩ := List.any_eq_true.mp h
  cases hf : st.find? (fun x => x.name == name) with
  | none => exact absurd hx (by simpa using List.find?_eq_none.mp hf x hmem)
  | some y => exact ⟨y, select_ok_iff.mpr hf⟩

/-- Select fails with NoEntry exactly when the existence check fails. -/
theorem select_err_iff_not_exists {st : Store} {name : String} :
    select st name = Except.error Error.NoEntry ↔ exists_ st name = false := by
  constructor
  · intro h
    cases hex : exists_ st name with
    | false => rfl
    | true =>
      obtain ⟨e, he⟩ := select_of_exists hex
      rw [he] at h
      cases h
  · intro h
    rw [select_err_iff, List.find?_eq_none]
    intro x hmem hx
    have : exists_ st name = true := List.any_eq_true.mpr ⟨x, hmem, hx⟩
    rw [h] at this
    cases this

/-- find? commutes with a map that does not change the tested predicate. -/
theorem find?_map_of_pred {f : Entry → Entry} {p : Entry → Bool}
    (hp : ∀ x, p (f x) = p x) (l : List Entry) :
    (l.map f).find? p = (l.find? p).map f := by
  rw [List.find?_map]
  have hfp : (p ∘ f) = p := funext hp
  rw [hfp]

/-- The row update of set/toggle does not change the name column, so the
first match after an update is the updated first match before it. -/
theorem select_updateWhere {st : Store} {name : String} {e : Entry} (v a : String)
    (h : select st name = Except.ok e) :
    select (updateWhere st name v a) name =
      Except.ok { e with value := v, alternate := a } := by
  have hname : e.name = name := name_of_select h
  subst hname
  rw [select_ok_iff] at h ⊢
  unfold updateWhere
  rw [find?_map_of_pred]
  · rw [h]
    simp
  · intro x
    by_cases hx : (x.name == e.name) = true
    · simp [hx]
    · simp [hx]

/-- Unfolding of toggle on a present entry. -/
theorem toggle_cmd_eq {st : Store} {name : String} {e : Entry}
    (h : select st name = Except.ok e) :
    toggle_cmd st name =
      (updateWhere st name e.alternate e.value, Except.ok e.alternate) := by
  have hname : e.name = name := name_of_select h
  subst hname
  unfold toggle_cmd
  rw [h]

/-- Unfolding of set on a present entry (the update path). -/
theorem set_cmd_update_eq {st : Store} {name : String} {e : Entry}
    (nv na : Option String) (co : Bool)
    (h : select st name = Except.ok e) :
    set_cmd st name nv na co =
      (updateWhere st name (nv.getD e.value) (na.getD e.alternate),
        Except.ok ("Ok")) := by
  have hex := exists_of_select h
  unfold set_cmd
  rw [hex, h]
  simp

/-- Unfolding of set on an absent entry with change_only = false (the create
path). -/
theorem set_cmd_create_eq {st : Store} {name : String} (nv na : Option String)
    (h : exists_ st name = false) :
    set_cmd st name nv na false =
      (st ++ [⟨nextId st, name, nv.getD (""), na.getD ("")⟩],
        Except.ok ("Ok")) := by
  unfold set_cmd
  rw [h]
  simp [new]

/-- Unfolding of set on an absent entry with change_only = true (the guarded
failure path). -/
theorem set_cmd_change_only_eq {st : Store} {name : String} (nv na : Option String)
    (h : exists_ st name = false) :
    set_cmd st name nv na true = (st, Except.error Error.NoEntry) := by
  unfold set_cmd
  rw [h]
  simp

/-- Unfolding of toggle on an absent entry. -/
theorem toggle_cmd_err_eq {st : Store} {name : String}
    (h : exists_ st name = false) :
    toggle_cmd st name = (st, Except.error Error.NoEntry) := by
  unfold toggle_cmd
  rw [select_err_iff_not_exists.mpr h]

/-- The update of set/toggle touches only the value and alternate columns:
the id and name of every row position are unchanged. -/
theorem updateWhere_getElem?_frame (st : Store) (name v a : String) (i : Nat) :
    ((updateWhere st name v a)[i]?).map Entry._id = (st[i]?).map Entry._id ∧
    ((updateWhere st name v a)[i]?).map Entry.name = (st[i]?).map Entry.name := by
  unfold updateWhere
  rw [List.getElem?_map]
  cases st[i]? with
  | none => exact ⟨rfl, rfl⟩
  | some x =>
    constructor <;> by_cases hx : x.name = name <;> simp [hx]

/-- C1: toggle on a name present in the store swaps the entry's value and
alternate in storage (new value = old alternate, new alternate = old value)
and returns the new value, i.e. the old alternate. -/
theorem C1_toggle_swaps_and_returns_new_value
    (st : Store) (name : String) (e : Entry)
    (h : select st name = Except.ok e) :
    (toggle_cmd st name).2 = Except.ok e.alternate ∧
    select (toggle_cmd st name).1 name =
      Except.ok { e with value := e.alternate, alternate := e.value } := by
  rw [toggle_cmd_eq h]
  exact ⟨rfl, select_updateWhere e.alternate e.value h⟩

/-- Witness for C1 at a concrete one-entry store. -/
theorem C1_witness :
    (toggle_cmd [⟨1, "a", "v", "w"⟩] ("a")).2 = Except.ok ("w") ∧
    select (toggle_cmd [⟨1, "a", "v", "w"⟩] ("a")).1 ("a") =
      Except.ok ⟨1, "a", "w", "v"⟩ :=
  C1_toggle_swaps_and_returns_new_value _ ("a") ⟨1, "a", "v", "w"⟩ (by decide)

/-- C2: drop removes all entries and returns "Ok", and list in any format on
the resulting store succeeds with the empty string. -/
theorem C2_drop_then_list_empty (st : Store) (json : Bool) :
    (drop_cmd st).2 = Except.ok ("Ok") ∧
    (drop_cmd st).1 = [] ∧
    list_cmd (drop_cmd st).1 json = Except.ok ("") :=
  ⟨rfl, rfl, rfl⟩

/-- C3: get on a present entry returns "value alternate" (space-joined) in
full mode, exactly the value field in value_only mode and exactly the
alternate field in alternate_only mode. -/
theorem C3_get_modes (st : Store) (name : String) (e : Entry) (j : Bool)
    (h : select st name = Except.ok e) :
    get_cmd st name false false false = Except.ok (e.value ++ " " ++ e.alternate) ∧
    get_cmd st name true false j = Except.ok e.value ∧
    get_cmd st name false true j = Except.ok e.alternate := by
  unfold get_cmd
  rw [h]
  simp

/-- Witness for C3 at a concrete one-entry store. -/
theorem C3_witness :
    get_cmd [⟨1, "a", "v", "w"⟩] ("a") false false false = Except.ok ("v w") ∧
    get_cmd [⟨1, "a", "v", "w"⟩] ("a") true false false = Except.ok ("v") ∧
    get_cmd [⟨1, "a", "v", "w"⟩] ("a") false true false = Except.ok ("w") :=
  C3_get_modes _ ("a") ⟨1, "a", "v", "w"⟩ false (by decide)

/-- C4: set with change_only = true on an absent name fails with NoEntry,
creates nothing and leaves the store unchanged, so the name still does not
exist afterwards. -/
theorem C4_set_change_only_missing (st : Store) (name : String)
    (nv na : Option String) (h : exists_ st name = false) :
    set_cmd st name nv na true = (st, Except.error Error.NoEntry) ∧
    exists_ (set_cmd st name nv na true).1 name = false := by
  have he := set_cmd_change_only_eq nv na h
  exact ⟨he, by rw [he]; exact h⟩

/-- Witness for C4 at a concrete store lacking the name. -/
theorem C4_witness :
    set_cmd [⟨1, "a", "v", "w"⟩] ("b") (some ("x")) none true =
      ([⟨1, "a", "v", "w"⟩], Except.error Error.NoEntry) ∧
    exists_ (set_cmd [⟨1, "a", "v", "w"⟩] ("b") (some ("x")) none true).1 ("b") =
      false :=
  C4_set_change_only_missing _ ("b") (some ("x")) none (by decide)

/-- C5: on a present entry, set updates value/alternate to the provided
options (keeping the current field when an option is absent) and returns
"Ok"; on an absent name with change_only = false it creates an entry whose
value/alternate default to the empty string and returns "Ok". -/
theorem C5_set_updates_or_creates (st : Store) (name : String)
    (nv na : Option String) (co : Bool) (e : Entry) :
    (select st name = Except.ok e →
      set_cmd st name nv na co =
        (updateWhere st name (nv.getD e.value) (na.getD e.alternate),
          Except.ok ("Ok")) ∧
      select (set_cmd st name nv na co).1 name =
        Except.ok { e with value := nv.getD e.value,
                           alternate := na.getD e.alternate }) ∧
    (exists_ st name = false →
      set_cmd st name nv na false =
        (st ++ [⟨nextId st, name, nv.getD (""), na.getD ("")⟩],
          Except.ok ("Ok"))) := by
  constructor
  · intro h
    have hu := set_cmd_update_eq nv na co h
    refine ⟨hu, ?_⟩
    rw [hu]
    exact select_updateWhere _ _ h
  · intro h
    exact set_cmd_create_eq nv na h

/-- Witness for C5: one application on the update path and one on the create
path. -/
theorem C5_witness :
    (set_cmd [⟨1, "a", "v", "w"⟩] ("a") (some ("x")) none false =
      ([⟨1, "a", "x", "w"⟩], Except.ok ("Ok"))) ∧
    (set_cmd [] ("a") (some ("v")) none false =
      ([⟨1, "a", "v", ""⟩], Except.ok ("Ok"))) :=
  ⟨((C5_set_updates_or_creates [⟨1, "a", "v", "w"⟩] ("a") (some ("x")) none false
      ⟨1, "a", "v", "w"⟩).1 (by decide)).1,
    (C5_set_updates_or_creates [] ("a") (some ("v")) none false
      ⟨0, "", "", ""⟩).2 (by decide)⟩

/-- C6: toggling a present entry twice restores its original value/alternate
pairing, and the second toggle returns the entry's original value. -/
theorem C6_toggle_involutive (st : Store) (name : String) (e : Entry)
    (h : select st name = Except.ok e) :
    (toggle_cmd (toggle_cmd st name).1 name).2 = Except.ok e.value ∧
    select (toggle_cmd (toggle_cmd st name).1 name).1 name = Except.ok e := by
  have h1 := toggle_cmd_eq h
  have hs1 : select (toggle_cmd st name).1 name =
      Except.ok { e with value := e.alternate, alternate := e.value } := by
    rw [h1]
    exact select_updateWhere _ _ h
  have h2 := toggle_cmd_eq hs1
  constructor
  · rw [h2]
  · rw [h2]
    exact @select_updateWhere (toggle_cmd st name).1 name
      { e with value := e.alternate, alternate := e.value } e.value e.alternate hs1

/-- Witness for C6 at a concrete one-entry store. -/
theorem C6_witness :
    (toggle_cmd (toggle_cmd [⟨1, "a", "v", "w"⟩] ("a")).1 ("a")).2 =
      Except.ok ("v") ∧
    select (toggle_cmd (toggle_cmd [⟨1, "a", "v", "w"⟩] ("a")).1 ("a")).1 ("a") =
      Except.ok ⟨1, "a", "v", "w"⟩ :=
  C6_toggle_involutive _ ("a") ⟨1, "a", "v", "w"⟩ (by decide)

/-- C7: the json rendering of an entry is the object with exactly the keys
_id, name, value and alternate, every field rendered as a JSON string (the
numeric _id printed in decimal inside quotes); get in json mode returns it,
and list(json) on the spec's one-entry store yields exactly the expected
line followed by a newline. -/
theorem C7_json_rendering (st : Store) (name : String) (e : Entry)
    (h : select st name = Except.ok e) :
    get_cmd st name false false true = Except.ok e.json ∧
    e.json = "\x7b \"_id\": \"" ++ toString e._id ++ "\", \"name\": \"" ++ e.name ++
      "\", \"value\": \"" ++ e.value ++ "\", \"alternate\": \"" ++ e.alternate ++
      "\" \x7d" ∧
    list_cmd [⟨1, "a", "v", "w"⟩] true =
      Except.ok
        ("\x7b \"_id\": \"1\", \"name\": \"a\", \"value\": \"v\", \"alternate\": \"w\" \x7d\n") := by
  refine ⟨?_, rfl, by decide⟩
  unfold get_cmd
  rw [h]
  simp

/-- Witness for C7 at a concrete one-entry store. -/
theorem C7_witness :
    get_cmd [⟨1, "a", "v", "w"⟩] ("a") false false true =
      Except.ok (Entry.json ⟨1, "a", "v", "w"⟩) :=
  (C7_json_rendering _ ("a") ⟨1, "a", "v", "w"⟩ (by decide)).1

/-- C8: exists, the create path of set, delete, list and drop never fail with
NoEntry — delete on an absent name still returns "Ok" and leaves the name
absent — while set with change_only = true, toggle and get fail with NoEntry
exactly when the name is absent. -/
theorem C8_noentry_taxonomy (st : Store) (name : String)
    (nv na : Option String) (vo ao j : Bool) :
    exists_cmd st name = Except.ok (toString (exists_ st name)) ∧
    (delete_cmd st name).2 = Except.ok ("Ok") ∧
    exists_ (delete_cmd st name).1 name = false ∧
    (∃ s, list_cmd st j = Except.ok s) ∧
    (drop_cmd st).2 = Except.ok ("Ok") ∧
    (set_cmd st name nv na false).2 = Except.ok ("Ok") ∧
    ((set_cmd st name nv na true).2 = Except.error Error.NoEntry ↔
      exists_ st name = false) ∧
    ((toggle_cmd st name).2 = Except.error Error.NoEntry ↔
      exists_ st name = false) ∧
    (get_cmd st name vo ao j = Except.error Error.NoEntry ↔
      exists_ st name = false) := by
  refine ⟨rfl, rfl, ?_, ⟨_, rfl⟩, rfl, ?_, ?_, ?_, ?_⟩
  · unfold exists_ delete_cmd
    rw [List.any_eq_false]
    intro x hx
    have hmem := List.mem_filter.mp hx
    simpa using hmem.2
  · cases hex : exists_ st name with
    | true =>
      obtain ⟨e, he⟩ := select_of_exists hex
      rw [set_cmd_update_eq nv na false he]
    | false =>
      rw [set_cmd_create_eq nv na hex]
  · cases hex : exists_ st name with
    | true =>
      obtain ⟨e, he⟩ := select_of_exists hex
      rw [set_cmd_update_eq nv na true he]
      simp
    | false =>
      rw [set_cmd_change_only_eq nv na hex]
      simp
  · cases hex : exists_ st name with
    | true =>
      obtain ⟨e, he⟩ := select_of_exists hex
      rw [toggle_cmd_eq he]
      simp
    | false =>
      rw [toggle_cmd_err_eq hex]
      simp
  · cases hex : exists_ st name with
    | true =>
      obtain ⟨e, he⟩ := select_of_exists hex
      unfold get_cmd
      rw [he]
      split_ifs <;> simp
    | false =>
      unfold get_cmd
      rw [select_err_iff_not_exists.mpr hex]
      simp

/-- C9: neither set nor toggle changes the id (or the name) of any row
already present in the store: their UPDATE statements write only the value
and alternate columns, and the create path only appends. -/
theorem C9_id_immutable (st : Store) (name : String) (nv na : Option String)
    (co : Bool) (i : Nat) (h : i < st.length) :
    ((set_cmd st name nv na co).1[i]?).map Entry._id = (st[i]?).map Entry._id ∧
    ((set_cmd st name nv na co).1[i]?).map Entry.name = (st[i]?).map Entry.name ∧
    ((toggle_cmd st name).1[i]?).map Entry._id = (st[i]?).map Entry._id ∧
    ((toggle_cmd st name).1[i]?).map Entry.name = (st[i]?).map Entry.name := by
  have htog : ((toggle_cmd st name).1[i]?).map Entry._id = (st[i]?).map Entry._id ∧
      ((toggle_cmd st name).1[i]?).map Entry.name = (st[i]?).map Entry.name := by
    cases hex : exists_ st name with
    | true =>
      obtain ⟨e, he⟩ := select_of_exists hex
      rw [toggle_cmd_eq he]
      exact updateWhere_getElem?_frame st name e.alternate e.value i
    | false =>
      rw [toggle_cmd_err_eq hex]
      exact ⟨rfl, rfl⟩
  have hset : ((set_cmd st name nv na co).1[i]?).map Entry._id = (st[i]?).map Entry._id ∧
      ((set_cmd st name nv na co).1[i]?).map Entry.name = (st[i]?).map Entry.name := by
    cases hex : exists_ st name with
    | true =>
      obtain ⟨e, he⟩ := select_of_exists hex
      rw [set_cmd_update_eq nv na co he]
      exact updateWhere_getElem?_frame st name _ _ i
    | false =>
      cases co with
      | false =>
        rw [set_cmd_create_eq nv na hex]
        constructor <;> rw [List.getElem?_append_left h]
      | true =>
        rw [set_cmd_change_only_eq nv na hex]
        exact ⟨rfl, rfl⟩
  exact ⟨hset.1, hset.2, htog.1, htog.2⟩

/-- Witness for C9 at a concrete one-entry store and row index 0. -/
theorem C9_witness :
    ((set_cmd [⟨1, "a", "v", "w"⟩] ("a") (some ("x")) none false).1[0]?).map
      Entry._id = some 1 ∧
    ((set_cmd [⟨1, "a", "v", "w"⟩] ("a") (some ("x")) none false).1[0]?).map
      Entry.name = some ("a") ∧
    ((toggle_cmd [⟨1, "a", "v", "w"⟩] ("a")).1[0]?).map Entry._id = some 1 ∧
    ((toggle_cmd [⟨1, "a", "v", "w"⟩] ("a")).1[0]?).map Entry.name = some ("a") :=
  C9_id_immutable [⟨1, "a", "v", "w"⟩] ("a") (some ("x")) none false 0 (by decide)

/-- C10: list in the spec's display format produces exactly the same output
string as list in the spec's debug format (Display delegates to Debug), and
the implementation's two branches realise the display/debug and json formats
respectively. -/
theorem C10_display_eq_debug (st : Store) :
    listSpec st ListFormat.display = listSpec st ListFormat.debug ∧
    list_cmd st false = Except.ok (listSpec st ListFormat.display) ∧
    list_cmd st true = Except.ok (listSpec st ListFormat.json) :=
  ⟨rfl, rfl, rfl⟩

end ConfigStore
